import Mathlib

/-!
# Tracing helpers of the YDB OpenTelemetry adapter (`types.go`)

A shallow embedding of `logError`, `finish`, `intermediate`, `startSpanWithCounter`,
`startSpan`, `followSpan` and `nodeID`.

* Calls made on a `trace.Span` and on a `trace.Tracer` are recorded, in program order,
  as lists of call records; the functions of `types.go` become functions that return
  the calls they make together with their Go results.
* The third-party collaborators (`retry.Check`, `errors.As`, `error.Error`,
  `tracer.Start`, `meta.WithTraceID`, `trace.ContextWithRemoteSpanContext`,
  `ydb.Version`) are parameters, so every theorem holds for all of them.
* `net/url` (Go standard library) is embedded concretely, byte by byte, because
  `nodeID` is decided by it; `nodeIDWith` is `nodeID` with `url.Parse` left as a parameter.
-/

set_option autoImplicit false
set_option linter.dupNamespace false

namespace YdbOtel

/-! ## Attributes (`go.opentelemetry.io/otel/attribute`) -/

/-- The payload of an `attribute.Value`: one constructor per `attribute.Type`.
A `float64` is carried as its IEEE-754 bit pattern. -/
inductive Value where
  | invalid
  | bool (b : Bool)
  | int64 (i : Int)
  | float64 (bits : Nat)
  | string (s : String)
  | boolSlice (bs : List Bool)
  | int64Slice (is : List Int)
  | float64Slice (bits : List Nat)
  | stringSlice (ss : List String)
  deriving DecidableEq, Repr

/-- The Go struct `attribute.KeyValue`. -/
structure KeyValue where
  key : String
  value : Value
  deriving DecidableEq, Repr

/-- The constructor `attribute.Bool(k, v)`. -/
def attrBool (k : String) (v : Bool) : KeyValue := ⟨k, Value.bool v⟩

/-- The constructor `attribute.Int(k, v)`. -/
def attrInt (k : String) (v : Int) : KeyValue := ⟨k, Value.int64 v⟩

/-- The constructor `attribute.String(k, v)`. -/
def attrString (k : String) (v : String) : KeyValue := ⟨k, Value.string v⟩

/-! ## Constants of `types.go` -/

/-- Source constant `errorAttribute = "error"`. -/
def errorAttribute : String := "error"

/-- Source constant `tracerID = "ydb-go-sdk"`. -/
def tracerID : String := "ydb-go-sdk"

/-- Source constant `version = "v" + ydb.Version`; `ydb.Version` belongs to the driver
and is a parameter. -/
def version (ydbVersion : String) : String := "v" ++ ydbVersion

/-! ## Errors and their classification -/

/-- What `retry.Check(err)` returns, seen through the two methods `logError` calls:
`MustDeleteSession()` and `MustRetry(isOperationIdempotent)`. -/
structure RetryMode where
  mustDeleteSession : Bool
  mustRetry : Bool → Bool

/-- A `ydb.Error` found by `errors.As`, seen through `Code()` (an `int32`) and `Name()`. -/
structure YdbError where
  code : Int
  name : String
  deriving DecidableEq, Repr

/-- The collaborators `logError` consults about a non-nil error value of type `E`. -/
structure ErrorDeps (E : Type) where
  /-- The method `err.Error()`. -/
  errorText : E → String
  /-- The function `retry.Check(err)`. -/
  retryCheck : E → RetryMode
  /-- The call `errors.As(err, &ydbErr)`: `some y` when it reports true and stores `y`. -/
  errorsAs : E → Option YdbError

/-! ## Spans -/

/-- The status codes of `go.opentelemetry.io/otel/codes`. -/
inductive Code where
  | unset
  | error
  | ok
  deriving DecidableEq, Repr

/-- One method call on a `trace.Span`. A Go `error` is `Option E`, with `none` for nil. -/
inductive SpanCall (E : Type) where
  | recordError (err : Option E) (eventAttrs : List KeyValue)
  | setStatus (code : Code) (description : String)
  | setAttributes (attrs : List KeyValue)
  | spanEnd

/-- The observable outcome of running a helper on one span: the calls made on the span, in
order, and whether the run stopped in a Go panic. -/
structure Run (E : Type) where
  calls : List (SpanCall E)
  panicked : Bool

/-- A run that made the given calls and returned normally. -/
def Run.returned {E : Type} (calls : List (SpanCall E)) : Run E := ⟨calls, false⟩

/-- Sequential composition: the statements after `r` run only when `r` returned. -/
def Run.andThen {E : Type} (r : Run E) (next : Run E) : Run E :=
  if r.panicked then r else ⟨r.calls ++ next.calls, next.panicked⟩

/-- Source function `logError` (types.go:23-39). With a nil `err` the call `RecordError` is still
made and `err.Error()` then dereferences the nil interface. -/
def logError {E : Type} (deps : ErrorDeps E) (err : Option E) (fields : List KeyValue) :
    Run E :=
  let recorded : SpanCall E :=
    SpanCall.recordError err (fields ++ [attrBool errorAttribute true])
  match err with
  | none => ⟨[recorded], true⟩
  | some e =>
    let m := deps.retryCheck e
    let classified : List (SpanCall E) :=
      [ recorded,
        SpanCall.setStatus Code.error (deps.errorText e),
        SpanCall.setAttributes
          [ attrBool (errorAttribute ++ ".delete_session") m.mustDeleteSession,
            attrBool (errorAttribute ++ ".must_retry") (m.mustRetry false),
            attrBool (errorAttribute ++ ".must_retry_idempotent") (m.mustRetry true) ] ]
    match deps.errorsAs e with
    | some ydbErr =>
      Run.returned (classified ++
        [ SpanCall.setAttributes
            [ attrInt (errorAttribute ++ ".ydb.code") ydbErr.code,
              attrString (errorAttribute ++ ".ydb.name") ydbErr.name ] ])
    | none => Run.returned classified

/-- Source function `intermediate` (types.go:51-57). -/
def intermediate {E : Type} (deps : ErrorDeps E) (err : Option E) (fields : List KeyValue) :
    Run E :=
  if err.isSome then
    logError deps err fields
  else
    Run.returned [SpanCall.setAttributes fields]

/-- Source function `finish` (types.go:41-48). -/
def finish {E : Type} (deps : ErrorDeps E) (err : Option E) (fields : List KeyValue) :
    Run E :=
  (if err.isSome then
    logError deps err fields
  else
    Run.returned [SpanCall.setAttributes fields]).andThen (Run.returned [SpanCall.spanEnd])

/-! ### Observations on a list of span calls -/

/-- The attributes put on the span itself: the arguments of all `SetAttributes` calls. -/
def spanAttributes {E : Type} : List (SpanCall E) → List KeyValue
  | [] => []
  | SpanCall.setAttributes attrs :: rest => attrs ++ spanAttributes rest
  | _ :: rest => spanAttributes rest

/-- Whether the call is `RecordError`. -/
def SpanCall.isRecordError {E : Type} : SpanCall E → Bool
  | SpanCall.recordError _ _ => true
  | _ => false

/-- Whether the call is `SetStatus`. -/
def SpanCall.isSetStatus {E : Type} : SpanCall E → Bool
  | SpanCall.setStatus _ _ => true
  | _ => false

/-- Whether the call is `End`. -/
def SpanCall.isEnd {E : Type} : SpanCall E → Bool
  | SpanCall.spanEnd => true
  | _ => false

/-- Whether an attribute key starts with `"error"`. -/
def errorKeyed (kv : KeyValue) : Bool := errorAttribute.toList.isPrefixOf kv.key.toList

/-! ## Starting spans -/

/-- One call of `tracer.Start(ctx, spanName, trace.WithAttributes(attrs...))`. -/
structure StartCall (Ctx : Type) where
  ctx : Ctx
  spanName : String
  attrs : List KeyValue

/-- The collaborators of `startSpan` and `followSpan`, for a context type `Ctx`, a span type
`Span` and a span-context type `SC`. -/
structure TraceDeps (Ctx Span SC : Type) where
  /-- The method `tracer.Start` of the tracer passed in: the context and span it returns. -/
  start : Ctx → String → List KeyValue → Ctx × Span
  /-- The chain `s.SpanContext().TraceID().String()`. -/
  traceIDString : Span → String
  /-- The function `meta.WithTraceID`. -/
  withTraceID : Ctx → String → Ctx
  /-- The function `trace.ContextWithRemoteSpanContext`. -/
  contextWithRemoteSpanContext : Ctx → SC → Ctx
  /-- The constant `ydb.Version`. -/
  ydbVersion : String

/-- What a span-starting helper leaves behind: the span it returns, the value it stored in
`*ctx`, and the calls it made to `tracer.Start`. -/
structure Started (Ctx Span : Type) where
  span : Span
  ctx : Ctx
  startCalls : List (StartCall Ctx)

/-- Source function `startSpan` (types.go:80-94). -/
def startSpan {Ctx Span SC : Type} (deps : TraceDeps Ctx Span SC) (ctx : Ctx)
    (operationName : String) (fields : List KeyValue) : Started Ctx Span :=
  let fields := fields ++ [attrString "ydb-go-sdk" (version deps.ydbVersion)]
  let started := deps.start ctx operationName fields
  let ctx1 := started.1
  let s := started.2
  let ctx2 := deps.withTraceID ctx1 (deps.traceIDString s)
  ⟨s, ctx2, [⟨ctx, operationName, fields⟩]⟩

/-- Source struct `counter` (types.go:59-63); `counter` is an `int64`. -/
structure counter (Span : Type) where
  span : Span
  counter : Int
  name : String

/-- Source function `startSpanWithCounter` (types.go:65-78): the counter it returns, with the
effects of the inner `startSpan` call. -/
def startSpanWithCounter {Ctx Span SC : Type} (deps : TraceDeps Ctx Span SC) (ctx : Ctx)
    (operationName : String) (counterName : String) (fields : List KeyValue) :
    counter Span × Started Ctx Span :=
  let fields := fields ++ [attrString "ydb.driver.sensor" (operationName ++ "_" ++ counterName)]
  let started := startSpan deps ctx operationName fields
  (⟨started.span, 0, counterName⟩, started)

/-- Source function `followSpan` (types.go:96-110). -/
def followSpan {Ctx Span SC : Type} (deps : TraceDeps Ctx Span SC) (related : SC) (ctx : Ctx)
    (operationName : String) (fields : List KeyValue) : Started Ctx Span :=
  let fields := fields ++ [attrString "ydb-go-sdk" (version deps.ydbVersion)]
  let startCtx := deps.contextWithRemoteSpanContext ctx related
  let started := deps.start startCtx operationName fields
  ⟨started.2, started.1, [⟨startCtx, operationName, fields⟩]⟩

/-! ## Go strings and the `strings` helpers used by `net/url`

A Go `string` is a sequence of bytes; a byte is a natural number below 256. Bytes are
written as their decimal ASCII codes, with the character in a comment. -/

/-- A Go string as its bytes. -/
abbrev GoString := List Nat

/-- The bytes of an ASCII literal. -/
def lit (s : String) : GoString := s.toList.map Char.toNat

/-- Go `strings.HasPrefix`. -/
def hasPrefix (s pre : GoString) : Bool := pre.isPrefixOf s

/-- Go `strings.HasSuffix`. -/
def hasSuffix (s suf : GoString) : Bool := suf.reverse.isPrefixOf s.reverse

/-- Go `strings.Index`: the position of the first occurrence of `sep`, `none` for -1. -/
def index : GoString → GoString → Option Nat
  | [], sep => if sep = [] then some 0 else none
  | c :: cs, sep =>
    if hasPrefix (c :: cs) sep then some 0
    else (index cs sep).map (· + 1)

/-- Go `strings.LastIndex`: the position of the last occurrence of `sep`, `none` for -1. -/
def lastIndex : GoString → GoString → Option Nat
  | [], sep => if sep = [] then some 0 else none
  | c :: cs, sep =>
    match lastIndex cs sep with
    | some i => some (i + 1)
    | none => if hasPrefix (c :: cs) sep then some 0 else none

/-- Go `strings.Contains`. -/
def contains (s sub : GoString) : Bool := (index s sub).isSome

/-- Go `strings.Count` for a one-byte separator. -/
def countByte (s : GoString) (c : Nat) : Nat := s.count c

/-- Go `strings.Cut`: the text before and after the first `sep`, and whether it was found. -/
def cut (s sep : GoString) : GoString × GoString × Bool :=
  match index s sep with
  | some i => (s.take i, s.drop (i + sep.length), true)
  | none => (s, [], false)

/-- Go `strings.ToLower` on the ASCII letters (the only ones a scheme can hold). -/
def toLower (s : GoString) : GoString :=
  s.map (fun c => if 65 ≤ c ∧ c ≤ 90 then c + 32 else c)

/-! ## `net/url`: escaping

The functions of `net/url` below follow `src/net/url/url.go` of the Go standard library as of
Go 1.26 under its default settings (`urlmaxqueryparams=10000`, `urlstrictcolons=1`), function
by function and under the same names: `;` is not a separator in queries, a query of more than
10000 parameters is refused, a host may hold a colon only in front of its port, and a bracketed
host must be an IPv6 literal that `net/netip` accepts. Loops over a string index become
recursion over the bytes. -/

/-- The `encoding` modes of `net/url`. -/
inductive encoding where
  | encodePath
  | encodePathSegment
  | encodeHost
  | encodeZone
  | encodeUserPassword
  | encodeQueryComponent
  | encodeFragment
  deriving DecidableEq, Repr

/-- The errors of `netip.ParseAddr`. -/
inductive AddrError where
  | unableToParseIP
  | missingIPv6Address
  | zoneMustBeNonEmpty
  | groupTooLong
  | fieldTooLarge
  | fieldWithoutDigit
  | embeddedIPv4Misplaced
  | embeddedIPv4TooLate
  | wantColon
  | colonAtEnd
  | multipleEllipsis
  | trailingGarbage
  | addressTooShort
  | ellipsisExpandsToNothing
  | ipv4LeadingZero
  | ipv4FieldTooLarge
  | ipv4FieldWithoutDigit
  | ipv4TooLong
  | ipv4TooShort
  | ipv4UnexpectedCharacter
  deriving DecidableEq, Repr

/-- The errors `net/url` produces while parsing. -/
inductive URLError where
  | escapeError (s : GoString)
  | invalidHostError (s : GoString)
  | invalidControlCharacter
  | emptyURL
  | missingProtocolScheme
  | invalidURIForRequest
  | firstPathSegmentColon
  | missingBracketInHost
  | invalidIPLiteral
  | invalidHost (err : AddrError)
  | invalidPort (port : GoString)
  | invalidUserinfo
  | invalidSemicolonSeparator
  | tooManyQueryParameters
  deriving DecidableEq, Repr

/-- Go `ishex`. -/
def ishex (c : Nat) : Bool :=
  (48 ≤ c && c ≤ 57) || (97 ≤ c && c ≤ 102) || (65 ≤ c && c ≤ 70)

/-- Go `unhex`. -/
def unhex (c : Nat) : Nat :=
  if 48 ≤ c ∧ c ≤ 57 then c - 48
  else if 97 ≤ c ∧ c ≤ 102 then c - 97 + 10
  else if 65 ≤ c ∧ c ≤ 70 then c - 65 + 10
  else 0

/-- The byte `unhex(a)<<4 | unhex(b)`. -/
def hexByte (a b : Nat) : Nat := ((unhex a <<< 4) ||| unhex b) % 256

/-- Go `shouldEscape`. -/
def shouldEscape (c : Nat) (mode : encoding) : Bool :=
  -- 'a'..'z', 'A'..'Z', '0'..'9'
  if (97 ≤ c ∧ c ≤ 122) ∨ (65 ≤ c ∧ c ≤ 90) ∨ (48 ≤ c ∧ c ≤ 57) then false
  -- host and zone: ! $ & ' ( ) * + , ; = : [ ] < > "
  else if (mode = encoding.encodeHost ∨ mode = encoding.encodeZone) ∧
      c ∈ [33, 36, 38, 39, 40, 41, 42, 43, 44, 59, 61, 58, 91, 93, 60, 62, 34] then false
  -- - _ . ~
  else if c ∈ [45, 95, 46, 126] then false
  -- $ & + , / : ; = ? @
  else if c ∈ [36, 38, 43, 44, 47, 58, 59, 61, 63, 64] then
    match mode with
    | encoding.encodePath => c == 63
    | encoding.encodePathSegment => c == 47 || c == 59 || c == 44 || c == 63
    | encoding.encodeUserPassword => c == 64 || c == 47 || c == 63 || c == 58
    | encoding.encodeQueryComponent => true
    | encoding.encodeFragment => false
    | _ => true
  -- fragment: ! ( ) *
  else if mode = encoding.encodeFragment ∧ c ∈ [33, 40, 41, 42] then false
  else true

/-- The first loop of Go `unescape`: it checks every `%` escape and the host bytes, counting
the escapes in `n` and noting in `hasPlus` a `+` seen in query mode. -/
def unescapeScan (mode : encoding) : GoString → Nat → Bool → Except URLError (Nat × Bool)
  | [], n, hasPlus => Except.ok (n, hasPlus)
  | c :: rest, n, hasPlus =>
    if c = 37 then -- '%'
      match rest with
      | a :: b :: rest2 =>
        if !ishex a || !ishex b then
          Except.error (URLError.escapeError [c, a, b])
        else if mode = encoding.encodeHost ∧ unhex a < 8 ∧ [c, a, b] ≠ [37, 50, 53] then
          Except.error (URLError.escapeError [c, a, b])
        else if mode = encoding.encodeZone ∧ [c, a, b] ≠ [37, 50, 53] ∧ hexByte a b ≠ 32 ∧
            shouldEscape (hexByte a b) encoding.encodeHost then
          Except.error (URLError.escapeError [c, a, b])
        else unescapeScan mode rest2 (n + 1) hasPlus
      | _ => Except.error (URLError.escapeError (c :: rest))
    else if c = 43 then -- '+'
      unescapeScan mode rest n (decide (mode = encoding.encodeQueryComponent))
    else if (mode = encoding.encodeHost ∨ mode = encoding.encodeZone) ∧ c < 128 ∧
        shouldEscape c encoding.encodeHost then
      Except.error (URLError.invalidHostError [c])
    else unescapeScan mode rest n hasPlus

/-- The second loop of Go `unescape`: it rewrites each escape to its byte and, in query mode,
each `+` to a space. It runs only on text `unescapeScan` accepted, where every `%` has two
bytes after it. -/
def unescapeWrite (mode : encoding) : GoString → GoString
  | [] => []
  | c :: rest =>
    if c = 37 then -- '%'
      match rest with
      | a :: b :: rest2 => hexByte a b :: unescapeWrite mode rest2
      | _ => []
    else if c = 43 then -- '+'
      (if mode = encoding.encodeQueryComponent then 32 else 43) :: unescapeWrite mode rest
    else c :: unescapeWrite mode rest

/-- Go `unescape`. -/
def unescape (s : GoString) (mode : encoding) : Except URLError GoString :=
  match unescapeScan mode s 0 false with
  | Except.error e => Except.error e
  | Except.ok (n, hasPlus) =>
    if n = 0 ∧ hasPlus = false then Except.ok s
    else Except.ok (unescapeWrite mode s)

/-- Go `url.QueryUnescape`. -/
def QueryUnescape (s : GoString) : Except URLError GoString :=
  unescape s encoding.encodeQueryComponent

/-! ## `net/url`: query values -/

/-- Go `url.Values`, a `map[string][]string`: each key with its values, `[]` when absent. -/
abbrev Values := GoString → List GoString

/-- The empty map `make(Values)`. -/
def Values.empty : Values := fun _ => []

/-- The statement `m[key] = append(m[key], value)`. -/
def Values.add (m : Values) (key value : GoString) : Values :=
  fun k => if k = key then m key ++ [value] else m k

/-- Go `Values.Get`: the first value of the key, or `""`. -/
def Values.Get (v : Values) (key : GoString) : GoString :=
  match v key with
  | [] => []
  | first :: _ => first

/-- The loop of Go `parseQuery`, one iteration per unit of fuel; it carries the map and the
first error. Pairs that are malformed are skipped. -/
def parseQueryLoop : Nat → Values → Option URLError → GoString → Values × Option URLError
  | 0, m, err, _ => (m, err)
  | fuel + 1, m, err, query =>
    if query = [] then (m, err)
    else
      let key := (cut query (lit "&")).1
      let query := (cut query (lit "&")).2.1
      if contains key (lit ";") then
        parseQueryLoop fuel m (some URLError.invalidSemicolonSeparator) query
      else if key = [] then
        parseQueryLoop fuel m err query
      else
        let value := (cut key (lit "=")).2.1
        let key := (cut key (lit "=")).1
        match QueryUnescape key with
        | Except.error err1 =>
          parseQueryLoop fuel m (if err = none then some err1 else err) query
        | Except.ok key =>
          match QueryUnescape value with
          | Except.error err1 =>
            parseQueryLoop fuel m (if err = none then some err1 else err) query
          | Except.ok value =>
            parseQueryLoop fuel (m.add key value) err query

/-- Go constant `defaultMaxParams`: the most parameters a query may hold. -/
def defaultMaxParams : Nat := 10000

/-- Go `urlParamsWithinMax` when the `GODEBUG` setting `urlmaxqueryparams` is not set. -/
def urlParamsWithinMax (params : Nat) : Bool := decide (params ≤ defaultMaxParams)

/-- Go `parseQuery`: a query whose number of parameters, `strings.Count(query, "&") + 1`, is
over the limit is refused before anything is stored; otherwise the loop runs. Every iteration
of the loop removes at least one byte of the query, so its length is enough fuel. -/
def parseQuery (m : Values) (query : GoString) : Values × Option URLError :=
  if !urlParamsWithinMax (countByte query 38 + 1) then
    (m, some URLError.tooManyQueryParameters)
  else parseQueryLoop query.length m none query

/-- Go `url.ParseQuery`. -/
def ParseQuery (query : GoString) : Values × Option URLError :=
  parseQuery Values.empty query

/-! ## `net/url`: parsing a URL -/

/-- Go `url.Userinfo`. -/
structure Userinfo where
  username : GoString
  password : GoString
  passwordSet : Bool
  deriving DecidableEq, Repr

/-- Go `url.URL`. The fields `RawPath` and `RawFragment` are left out: they are encoding hints
computed after parsing has succeeded and nothing here reads them. -/
structure URL where
  Scheme : GoString := []
  Opaque : GoString := []
  User : Option Userinfo := none
  Host : GoString := []
  Path : GoString := []
  OmitHost : Bool := false
  ForceQuery : Bool := false
  RawQuery : GoString := []
  Fragment : GoString := []
  deriving DecidableEq, Repr

/-- Go `(*URL).Query`: the values of `RawQuery`, the parse error dropped. -/
def URL.Query (u : URL) : Values := (ParseQuery u.RawQuery).1

/-- Go `stringContainsCTLByte`: a byte below `' '` or equal to 0x7f. -/
def stringContainsCTLByte (s : GoString) : Bool := s.any (fun b => b < 32 || b == 127)

/-- The loop of Go `getScheme` at index `i`, with `s` the bytes from `i` on. -/
def getSchemeFrom (rawURL : GoString) : Nat → GoString → Except URLError (GoString × GoString)
  | _, [] => Except.ok ([], rawURL)
  | i, c :: s =>
    if (97 ≤ c ∧ c ≤ 122) ∨ (65 ≤ c ∧ c ≤ 90) then getSchemeFrom rawURL (i + 1) s
    -- '0'..'9', '+', '-', '.'
    else if (48 ≤ c ∧ c ≤ 57) ∨ c = 43 ∨ c = 45 ∨ c = 46 then
      if i = 0 then Except.ok ([], rawURL) else getSchemeFrom rawURL (i + 1) s
    else if c = 58 then -- ':'
      if i = 0 then Except.error URLError.missingProtocolScheme
      else Except.ok (rawURL.take i, rawURL.drop (i + 1))
    else Except.ok ([], rawURL)

/-- Go `getScheme`: the scheme and the rest of the URL. -/
def getScheme (rawURL : GoString) : Except URLError (GoString × GoString) :=
  getSchemeFrom rawURL 0 rawURL

/-- Go `validOptionalPort`: empty, or `:` followed by digits. -/
def validOptionalPort (port : GoString) : Bool :=
  match port with
  | [] => true
  | c :: digits => c == 58 && digits.all (fun b => 48 ≤ b && b ≤ 57)

/-- Go `validUserinfo`: letters, digits and `- . _ : ~ ! $ & ' ( ) * + , ; = % @`. -/
def validUserinfo (s : GoString) : Bool :=
  s.all (fun r =>
    (65 ≤ r && r ≤ 90) || (97 ≤ r && r ≤ 122) || (48 ≤ r && r ≤ 57) ||
    decide (r ∈ [45, 46, 95, 58, 126, 33, 36, 38, 39, 40, 41, 42, 43, 44, 59, 61, 37, 64]))

/-! ### `net/netip`: parsing an address

The address parser `netip.ParseAddr`, which `parseHost` asks whether the text between brackets
is an IP address; it follows `src/net/netip/netip.go`. -/

/-- A `netip.Addr`: whether it is an IPv4 address (`Is4`), its bytes, and its zone. -/
structure Addr where
  is4 : Bool
  bytes : List Nat
  zone : GoString
  deriving DecidableEq, Repr

/-- The loop of Go `parseIPv4Fields` over the text of the fields: `prev` is the byte before the
current one, `val` the value of the current field, `digLen` its number of digits, and `fields`
the fields already stored (`pos` is their number). -/
def parseIPv4FieldsFrom :
    GoString → Option Nat → Nat → Nat → List Nat → Except AddrError (List Nat)
  | [], _, val, _, fields =>
    if fields.length < 3 then Except.error AddrError.ipv4TooShort
    else Except.ok (fields ++ [val])
  | c :: rest, prev, val, digLen, fields =>
    if 48 ≤ c ∧ c ≤ 57 then
      if digLen = 1 ∧ val = 0 then Except.error AddrError.ipv4LeadingZero
      else if val * 10 + (c - 48) > 255 then Except.error AddrError.ipv4FieldTooLarge
      else parseIPv4FieldsFrom rest (some c) (val * 10 + (c - 48)) (digLen + 1) fields
    else if c = 46 then -- '.'
      if prev = none ∨ rest = [] ∨ prev = some 46 then
        Except.error AddrError.ipv4FieldWithoutDigit
      else if fields.length = 3 then Except.error AddrError.ipv4TooLong
      else parseIPv4FieldsFrom rest (some c) 0 0 (fields ++ [val])
    else Except.error AddrError.ipv4UnexpectedCharacter

/-- Go `parseIPv4Fields` on the text `in[off:end]`: the four fields. -/
def parseIPv4Fields (s : GoString) : Except AddrError (List Nat) :=
  parseIPv4FieldsFrom s none 0 0 []

/-- Go `parseIPv4`. -/
def parseIPv4 (s : GoString) : Except AddrError Addr :=
  match parseIPv4Fields s with
  | Except.error e => Except.error e
  | Except.ok fields => Except.ok ⟨true, fields, []⟩

/-- The hexadecimal loop of Go `parseIPv6`: it reads the digits of one group from `s`, with
`off` digits read so far and `acc` their value, and returns `off`, `acc` and `s[off:]`. -/
def parseIPv6Group : GoString → Nat → Nat → Except AddrError (Nat × Nat × GoString)
  | [], off, acc => Except.ok (off, acc, [])
  | c :: rest, off, acc =>
    if ishex c then
      if off > 3 then Except.error AddrError.groupTooLong
      else if (acc <<< 4) + unhex c > 65535 then Except.error AddrError.fieldTooLarge
      else parseIPv6Group rest (off + 1) ((acc <<< 4) + unhex c)
    else Except.ok (off, acc, c :: rest)

/-- The main loop of Go `parseIPv6`, one group per unit of fuel: `s` is the text left, `ip` the
bytes stored so far (the index `i` is their number) and `ellipsis` the position of `::`, if seen.
It returns the three when the loop is left. -/
def parseIPv6Loop :
    Nat → GoString → List Nat → Option Nat → Except AddrError (GoString × List Nat × Option Nat)
  | 0, s, ip, ellipsis => Except.ok (s, ip, ellipsis)
  | fuel + 1, s, ip, ellipsis =>
    if ip.length ≥ 16 then Except.ok (s, ip, ellipsis)
    else
      match parseIPv6Group s 0 0 with
      | Except.error e => Except.error e
      | Except.ok (off, acc, rest) =>
        if off = 0 then Except.error AddrError.fieldWithoutDigit
        else if rest.head? = some 46 then -- '.': a trailing IPv4 address
          if ellipsis = none ∧ ip.length ≠ 12 then Except.error AddrError.embeddedIPv4Misplaced
          else if ip.length + 4 > 16 then Except.error AddrError.embeddedIPv4TooLate
          else
            match parseIPv4Fields s with
            | Except.error e => Except.error e
            | Except.ok fields => Except.ok ([], ip ++ fields, ellipsis)
        else
          let ip := ip ++ [(acc >>> 8) % 256, acc % 256]
          match rest with
          | [] => Except.ok ([], ip, ellipsis)
          | c :: s1 =>
            if c ≠ 58 then Except.error AddrError.wantColon -- ':'
            else
              match s1 with
              | [] => Except.error AddrError.colonAtEnd
              | d :: s2 =>
                if d = 58 then
                  if ellipsis.isSome then Except.error AddrError.multipleEllipsis
                  else if s2 = [] then Except.ok ([], ip, some ip.length)
                  else parseIPv6Loop fuel s2 ip (some ip.length)
                else parseIPv6Loop fuel (d :: s2) ip ellipsis

/-- Go `parseIPv6`. The loop runs while `i < 16` and every round stores two bytes, so eight
rounds are enough fuel. -/
def parseIPv6 (s : GoString) : Except AddrError Addr :=
  let withZone : Except AddrError (GoString × GoString) :=
    match index s (lit "%") with
    | some i =>
      if s.drop (i + 1) = [] then Except.error AddrError.zoneMustBeNonEmpty
      else Except.ok (s.take i, s.drop (i + 1))
    | none => Except.ok (s, [])
  match withZone with
  | Except.error e => Except.error e
  | Except.ok (s, zone) =>
    let leading := hasPrefix s (lit "::")
    let s := if leading then s.drop 2 else s
    let ellipsis : Option Nat := if leading then some 0 else none
    if leading ∧ s = [] then Except.ok ⟨false, List.replicate 16 0, zone⟩
    else
      match parseIPv6Loop 8 s [] ellipsis with
      | Except.error e => Except.error e
      | Except.ok (s, ip, ellipsis) =>
        if s ≠ [] then Except.error AddrError.trailingGarbage
        else if ip.length < 16 then
          match ellipsis with
          | none => Except.error AddrError.addressTooShort
          | some e =>
            Except.ok ⟨false, ip.take e ++ List.replicate (16 - ip.length) 0 ++ ip.drop e, zone⟩
        else if ellipsis.isSome then Except.error AddrError.ellipsisExpandsToNothing
        else Except.ok ⟨false, ip, zone⟩

/-- The scan of Go `netip.ParseAddr` for the first `.`, `:` or `%` of `s`; `rest` is the text
still to scan. -/
def parseAddrFrom (s : GoString) : GoString → Except AddrError Addr
  | [] => Except.error AddrError.unableToParseIP
  | c :: rest =>
    if c = 46 then parseIPv4 s -- '.'
    else if c = 58 then parseIPv6 s -- ':'
    else if c = 37 then Except.error AddrError.missingIPv6Address -- '%'
    else parseAddrFrom s rest

/-- Go `netip.ParseAddr`. -/
def ParseAddr (s : GoString) : Except AddrError Addr := parseAddrFrom s s

/-! ### Hosts and authorities -/

/-- The bracketed branch of Go `parseHost`, for a host whose only `[` is its first byte:
the text up to the last `]` must be an IPv6 literal, and what follows an optional port. -/
def parseIPLiteralHost (host : GoString) : Except URLError GoString :=
  match lastIndex host (lit "]") with
  | none => Except.error URLError.missingBracketInHost
  | some closeBracketIdx =>
    let colonPort := host.drop (closeBracketIdx + 1)
    if !validOptionalPort colonPort then Except.error (URLError.invalidPort colonPort)
    else
      match unescape colonPort encoding.encodeHost with
      | Except.error e => Except.error e
      | Except.ok unescapedColonPort =>
        let hostname := (host.take closeBracketIdx).drop 1
        let unescaped : Except URLError GoString :=
          match index hostname (lit "%25") with
          | some zoneIdx =>
            match unescape (hostname.take zoneIdx) encoding.encodeHost with
            | Except.error e => Except.error e
            | Except.ok hostPart =>
              match unescape (hostname.drop zoneIdx) encoding.encodeZone with
              | Except.error e => Except.error e
              | Except.ok zonePart => Except.ok (hostPart ++ zonePart)
          | none => unescape hostname encoding.encodeHost
        match unescaped with
        | Except.error e => Except.error e
        | Except.ok unescapedHostname =>
          match ParseAddr unescapedHostname with
          | Except.error e => Except.error (URLError.invalidHost e)
          | Except.ok addr =>
            if addr.is4 then Except.error URLError.invalidIPLiteral
            else Except.ok (lit "[" ++ unescapedHostname ++ lit "]" ++ unescapedColonPort)

/-- Go `parseHost`. A `[` anywhere but at the start is refused; a host starting with `[` is an
IP literal; in any other host the text from the first colon on must be a port, except under
the schemes `postgres` and `postgresql`, where it is the text from the last colon on. -/
def parseHost (scheme host : GoString) : Except URLError GoString :=
  match lastIndex host (lit "[") with
  | some openBracketIdx =>
    if openBracketIdx > 0 then Except.error URLError.invalidIPLiteral
    else parseIPLiteralHost host
  | none =>
    match index host (lit ":") with
    | some firstColon =>
      let lastColon := (lastIndex host (lit ":")).getD firstColon
      let i :=
        if lastColon ≠ firstColon ∧ (scheme = lit "postgresql" ∨ scheme = lit "postgres") then
          lastColon
        else firstColon
      let colonPort := host.drop i
      if !validOptionalPort colonPort then Except.error (URLError.invalidPort colonPort)
      else unescape host encoding.encodeHost
    | none => unescape host encoding.encodeHost

/-- The user part of Go `parseAuthority`, for the text before the last `@`. -/
def parseUserinfo (userinfo : GoString) : Except URLError Userinfo :=
  if !validUserinfo userinfo then Except.error URLError.invalidUserinfo
  else if !contains userinfo (lit ":") then
    match unescape userinfo encoding.encodeUserPassword with
    | Except.error e => Except.error e
    | Except.ok username => Except.ok ⟨username, [], false⟩
  else
    match unescape (cut userinfo (lit ":")).1 encoding.encodeUserPassword with
    | Except.error e => Except.error e
    | Except.ok username =>
      match unescape (cut userinfo (lit ":")).2.1 encoding.encodeUserPassword with
      | Except.error e => Except.error e
      | Except.ok password => Except.ok ⟨username, password, true⟩

/-- Go `parseAuthority`: the user information and the host. -/
def parseAuthority (scheme authority : GoString) :
    Except URLError (Option Userinfo × GoString) :=
  let i := lastIndex authority (lit "@")
  let parsed := match i with
    | none => parseHost scheme authority
    | some i => parseHost scheme (authority.drop (i + 1))
  match parsed with
  | Except.error e => Except.error e
  | Except.ok host =>
    match i with
    | none => Except.ok (none, host)
    | some i =>
      match parseUserinfo (authority.take i) with
      | Except.error e => Except.error e
      | Except.ok user => Except.ok (some user, host)

/-- Go `(*URL).setPath`: the unescaped path, or the escape error. -/
def URL.setPath (u : URL) (p : GoString) : Except URLError URL :=
  match unescape p encoding.encodePath with
  | Except.error e => Except.error e
  | Except.ok path => Except.ok { u with Path := path }

/-- Go `(*URL).setFragment`: the unescaped fragment, or the escape error. -/
def URL.setFragment (u : URL) (f : GoString) : Except URLError URL :=
  match unescape f encoding.encodeFragment with
  | Except.error e => Except.error e
  | Except.ok frag => Except.ok { u with Fragment := frag }

/-- The second half of Go `parse`, from the test `!strings.HasPrefix(rest, "/")` on: `url`
already holds the scheme and the query. -/
def parseHierarchy (url : URL) (rest : GoString) (viaRequest : Bool) : Except URLError URL :=
  if !hasPrefix rest (lit "/") ∧ url.Scheme ≠ [] then
    -- a rootless path after a scheme is opaque
    Except.ok { url with Opaque := rest }
  else if !hasPrefix rest (lit "/") ∧ viaRequest then
    Except.error URLError.invalidURIForRequest
  else if !hasPrefix rest (lit "/") ∧ contains (cut rest (lit "/")).1 (lit ":") then
    Except.error URLError.firstPathSegmentColon
  else if (url.Scheme ≠ [] ∨ (!viaRequest ∧ !hasPrefix rest (lit "///"))) ∧
      hasPrefix rest (lit "//") then
    let authority := rest.drop 2
    let split : GoString × GoString :=
      match index authority (lit "/") with
      | some i => (authority.take i, authority.drop i)
      | none => (authority, [])
    match parseAuthority url.Scheme split.1 with
    | Except.error e => Except.error e
    | Except.ok (user, host) => URL.setPath { url with User := user, Host := host } split.2
  else if url.Scheme ≠ [] ∧ hasPrefix rest (lit "/") then
    URL.setPath { url with OmitHost := true } rest
  else
    URL.setPath url rest

/-- Go `parse`. -/
def parse (rawURL : GoString) (viaRequest : Bool) : Except URLError URL :=
  if stringContainsCTLByte rawURL then Except.error URLError.invalidControlCharacter
  else if rawURL = [] ∧ viaRequest then Except.error URLError.emptyURL
  else if rawURL = lit "*" then Except.ok { Path := lit "*" }
  else
    match getScheme rawURL with
    | Except.error e => Except.error e
    | Except.ok (scheme, rest) =>
      let url : URL := { Scheme := toLower scheme }
      if hasSuffix rest (lit "?") ∧ countByte rest 63 = 1 then
        parseHierarchy { url with ForceQuery := true } rest.dropLast viaRequest
      else
        parseHierarchy { url with RawQuery := (cut rest (lit "?")).2.1 }
          (cut rest (lit "?")).1 viaRequest

/-- Go `url.Error`: the operation, the text being parsed and the cause. -/
structure ParseError where
  Op : String
  URL : GoString
  Err : URLError
  deriving DecidableEq, Repr

/-- Go `url.Parse`. -/
def Parse (rawURL : GoString) : Except ParseError URL :=
  let u := (cut rawURL (lit "#")).1
  let frag := (cut rawURL (lit "#")).2.1
  match parse u false with
  | Except.error err => Except.error ⟨"parse", u, err⟩
  | Except.ok url =>
    if frag = [] then Except.ok url
    else
      match url.setFragment frag with
      | Except.error err => Except.error ⟨"parse", rawURL, err⟩
      | Except.ok url => Except.ok url

/-- Source function `nodeID` (types.go:112-118), with the function it calls as `url.Parse` a
parameter. -/
def nodeIDWith (urlParse : GoString → Except ParseError URL) (sessionID : GoString) :
    GoString :=
  match urlParse sessionID with
  | Except.error _ => []
  | Except.ok u => u.Query.Get (lit "node_id")

/-- Source function `nodeID` (types.go:112-118), calling the `url.Parse` embedded above. -/
def nodeID (sessionID : GoString) : GoString := nodeIDWith Parse sessionID

/-! ## Reading a query string as a list of pairs

The vocabulary in which the behaviour of `nodeID` is stated: the pairs of a query string, which
of them are well formed, and the first one with a given key. None of it is used by `nodeID`. -/

/-- The segments of a query string, split at every `&`. -/
def querySegments : GoString → List GoString
  | [] => [[]]
  | c :: cs =>
    if c = 38 then [] :: querySegments cs -- '&'
    else
      match querySegments cs with
      | seg :: segs => (c :: seg) :: segs
      | [] => [[c]]

/-- A well-formed pair of a query string: its key after decoding, its value as written and its
value after decoding. -/
structure QueryPair where
  key : GoString
  rawValue : GoString
  value : GoString
  deriving DecidableEq, Repr

/-- The pair a segment `key=value` (or `key` alone) denotes when it is well formed: it is not
empty, holds no `;`, and its key and its value are validly escaped. -/
def wellFormedPair (seg : GoString) : Option QueryPair :=
  if seg = [] ∨ contains seg (lit ";") then none
  else
    match QueryUnescape (cut seg (lit "=")).1, QueryUnescape (cut seg (lit "=")).2.1 with
    | Except.ok k, Except.ok v => some ⟨k, (cut seg (lit "=")).2.1, v⟩
    | _, _ => none

/-- The well-formed pairs of a query string with the given key, in the order written. -/
def pairsWithKey (key : GoString) (query : GoString) : List QueryPair :=
  ((querySegments query).filterMap wellFormedPair).filter (fun p => p.key = key)

/-- The first well-formed pair of a query string with the given key. -/
def firstPairWithKey (key : GoString) (query : GoString) : Option QueryPair :=
  (pairsWithKey key query).head?

/-- Percent-decoding in the plain sense: every `%` followed by two hexadecimal digits becomes
the byte they write, every other byte stays as it is. -/
def percentDecode : GoString → GoString
  | [] => []
  | c :: rest =>
    if c = 37 then -- '%'
      match rest with
      | a :: b :: rest2 =>
        if ishex a ∧ ishex b then hexByte a b :: percentDecode rest2
        else c :: a :: b :: percentDecode rest2
      | _ => c :: rest
    else c :: percentDecode rest

/-- Error collaborators for an error type with a single value, used for concrete runs: the text
is `"boom"`, nothing must be retried, and no `ydb.Error` is in the chain. -/
def plainErrorDeps : ErrorDeps Unit :=
  ⟨fun _ => "boom", fun _ => ⟨false, fun _ => false⟩, fun _ => none⟩

/-! # Theorems -/

/-! ## Recording errors and finishing spans -/

theorem Run.andThen_returned {E : Type} (cs ds : List (SpanCall E)) :
    (Run.returned cs).andThen (Run.returned ds) = Run.returned (cs ++ ds) := by
  simp [Run.andThen, Run.returned]

/-- The attribute keys built from `errorAttribute`, written out. -/
theorem errorKeys_eq :
    errorAttribute = "error" ∧
    errorAttribute ++ ".delete_session" = "error.delete_session" ∧
    errorAttribute ++ ".must_retry" = "error.must_retry" ∧
    errorAttribute ++ ".must_retry_idempotent" = "error.must_retry_idempotent" ∧
    errorAttribute ++ ".ydb.code" = "error.ydb.code" ∧
    errorAttribute ++ ".ydb.name" = "error.ydb.name" := by decide

theorem logError_some {E : Type} (deps : ErrorDeps E) (e : E) (fields : List KeyValue) :
    logError deps (some e) fields =
      Run.returned
        ([ SpanCall.recordError (some e) (fields ++ [attrBool "error" true]),
           SpanCall.setStatus Code.error (deps.errorText e),
           SpanCall.setAttributes
             [ attrBool "error.delete_session" (deps.retryCheck e).mustDeleteSession,
               attrBool "error.must_retry" ((deps.retryCheck e).mustRetry false),
               attrBool "error.must_retry_idempotent" ((deps.retryCheck e).mustRetry true) ] ] ++
         match deps.errorsAs e with
         | some ydbErr =>
           [ SpanCall.setAttributes
               [ attrInt "error.ydb.code" ydbErr.code,
                 attrString "error.ydb.name" ydbErr.name ] ]
         | none => []) := by
  obtain ⟨_, h1, h2, h3, h4, h5⟩ := errorKeys_eq
  unfold logError
  rw [h1, h2, h3, h4, h5]
  cases h : deps.errorsAs e <;> simp [Run.returned, errorAttribute, h]

/-- Claim C3: for a non-nil error, `logError` returns normally after calling, in this order,
`RecordError(err)` with the event attributes `fields` followed by `error=true`, then
`SetStatus(Error, err.Error())`, then `SetAttributes` with exactly the three booleans
`error.delete_session`, `error.must_retry` and `error.must_retry_idempotent` taken from
`retry.Check(err)`; these are its only `RecordError` and `SetStatus` calls, and every call after
`RecordError` is the same whatever `fields` is, so the caller's fields reach the error event
only and never the span attributes. -/
theorem logError_records_then_classifies {E : Type} (deps : ErrorDeps E) (e : E)
    (fields : List KeyValue) :
    (logError deps (some e) fields).panicked = false ∧
    (logError deps (some e) fields).calls.take 3 =
      [ SpanCall.recordError (some e) (fields ++ [attrBool "error" true]),
        SpanCall.setStatus Code.error (deps.errorText e),
        SpanCall.setAttributes
          [ attrBool "error.delete_session" (deps.retryCheck e).mustDeleteSession,
            attrBool "error.must_retry" ((deps.retryCheck e).mustRetry false),
            attrBool "error.must_retry_idempotent" ((deps.retryCheck e).mustRetry true) ] ] ∧
    ((logError deps (some e) fields).calls.filter SpanCall.isRecordError).length = 1 ∧
    ((logError deps (some e) fields).calls.filter SpanCall.isSetStatus).length = 1 ∧
    (logError deps (some e) fields).calls.drop 1 = (logError deps (some e) []).calls.drop 1 ∧
    spanAttributes (logError deps (some e) fields).calls =
      spanAttributes (logError deps (some e) []).calls := by
  rw [logError_some, logError_some]
  cases deps.errorsAs e <;>
    simp [Run.returned, SpanCall.isRecordError, SpanCall.isSetStatus, spanAttributes]

/-- Claim C6: for a non-nil error, the span attributes `logError` sets are the three
retry-classification booleans, followed by `error.ydb.code = ydbErr.Code()` and
`error.ydb.name = ydbErr.Name()` exactly when `errors.As` finds a `ydb.Error`; an attribute
with key `error.ydb.code` or `error.ydb.name` is set if and only if `errors.As` finds one. -/
theorem logError_ydb_attributes_iff {E : Type} (deps : ErrorDeps E) (e : E)
    (fields : List KeyValue) :
    spanAttributes (logError deps (some e) fields).calls =
      [ attrBool "error.delete_session" (deps.retryCheck e).mustDeleteSession,
        attrBool "error.must_retry" ((deps.retryCheck e).mustRetry false),
        attrBool "error.must_retry_idempotent" ((deps.retryCheck e).mustRetry true) ] ++
      (match deps.errorsAs e with
       | some ydbErr =>
         [ attrInt "error.ydb.code" ydbErr.code, attrString "error.ydb.name" ydbErr.name ]
       | none => []) ∧
    ((∃ kv ∈ spanAttributes (logError deps (some e) fields).calls,
        kv.key = "error.ydb.code" ∨ kv.key = "error.ydb.name") ↔
      (deps.errorsAs e).isSome = true) ∧
    ((∃ code, attrInt "error.ydb.code" code ∈
        spanAttributes (logError deps (some e) fields).calls) ∧
      (∃ name, attrString "error.ydb.name" name ∈
        spanAttributes (logError deps (some e) fields).calls) ↔
      (deps.errorsAs e).isSome = true) := by
  rw [logError_some]
  cases deps.errorsAs e with
  | none =>
    simp only [Run.returned, spanAttributes, List.append_nil, Option.isSome_none]
    refine ⟨trivial, ?_, ?_⟩
    · simp [attrBool]
    · simp [attrBool, attrInt, attrString]
  | some y =>
    simp only [Run.returned, spanAttributes, List.append_nil, Option.isSome_some]
    refine ⟨by simp, ?_, ?_⟩
    · simp [attrBool, attrInt, attrString]
    · simp only [iff_true]
      exact ⟨⟨y.code, by simp⟩, ⟨y.name, by simp⟩⟩

theorem intermediate_eq {E : Type} (deps : ErrorDeps E) (err : Option E)
    (fields : List KeyValue) :
    intermediate deps err fields =
      match err with
      | some e => logError deps (some e) fields
      | none => Run.returned [SpanCall.setAttributes fields] := by
  cases err <;> simp [intermediate]

theorem finish_eq_intermediate_andThen {E : Type} (deps : ErrorDeps E) (err : Option E)
    (fields : List KeyValue) :
    finish deps err fields =
      (intermediate deps err fields).andThen (Run.returned [SpanCall.spanEnd]) := by
  simp [finish, intermediate]

theorem intermediate_not_panicked {E : Type} (deps : ErrorDeps E) (err : Option E)
    (fields : List KeyValue) : (intermediate deps err fields).panicked = false := by
  cases err with
  | none => rfl
  | some e => rw [intermediate_eq]; simp only []; rw [logError_some]; rfl

theorem intermediate_no_end {E : Type} (deps : ErrorDeps E) (err : Option E)
    (fields : List KeyValue) :
    (intermediate deps err fields).calls.filter SpanCall.isEnd = [] := by
  cases err with
  | none => simp [intermediate, Run.returned, SpanCall.isEnd]
  | some e =>
    rw [intermediate_eq]
    simp only []
    rw [logError_some]
    cases deps.errorsAs e <;> simp [Run.returned, SpanCall.isEnd]

theorem finish_calls {E : Type} (deps : ErrorDeps E) (err : Option E)
    (fields : List KeyValue) :
    (finish deps err fields).calls = (intermediate deps err fields).calls ++ [SpanCall.spanEnd] := by
  rw [finish_eq_intermediate_andThen]
  simp [Run.andThen, intermediate_not_panicked, Run.returned]

/-- Claim C8: for every error (nil or not) and every list of fields, the calls `finish` makes on
the span are the calls `intermediate` makes on the same arguments followed by one `End`. So
`finish` calls `End` exactly once and as its last call, `intermediate` never calls `End`,
neither of them panics, and `logError` runs only in the branch where the error is not nil:
with a nil error the only call before `End` is `SetAttributes(fields)`. -/
theorem finish_is_intermediate_then_end {E : Type} (deps : ErrorDeps E) (err : Option E)
    (fields : List KeyValue) :
    (finish deps err fields).calls =
      (intermediate deps err fields).calls ++ [SpanCall.spanEnd] ∧
    ((finish deps err fields).calls.filter SpanCall.isEnd).length = 1 ∧
    (finish deps err fields).calls.getLast? = some SpanCall.spanEnd ∧
    (intermediate deps err fields).calls.filter SpanCall.isEnd = [] ∧
    (finish deps err fields).panicked = false ∧
    (intermediate deps err fields).panicked = false ∧
    intermediate deps err fields =
      (match err with
       | some e => logError deps (some e) fields
       | none => Run.returned [SpanCall.setAttributes fields]) := by
  refine ⟨finish_calls deps err fields, ?_, ?_, intermediate_no_end deps err fields, ?_,
    intermediate_not_panicked deps err fields, intermediate_eq deps err fields⟩
  · rw [finish_calls, List.filter_append, intermediate_no_end]
    simp [SpanCall.isEnd]
  · rw [finish_calls]
    simp
  · rw [finish_eq_intermediate_andThen]
    simp [Run.andThen, intermediate_not_panicked, Run.returned]

/-- Claim C4, as amended: with a nil error, `finish` and `intermediate` return normally after
calling `SetAttributes` with exactly the given fields (`finish` then calls `End`); they make
no `RecordError` call and no `SetStatus` call, and the attributes they put on the span are the
caller's fields and nothing else, so an attribute whose key starts with `"error"` is set
exactly when the caller passed it among the fields. -/
theorem nil_error_sets_only_fields {E : Type} (deps : ErrorDeps E) (fields : List KeyValue) :
    finish deps none fields =
      Run.returned [SpanCall.setAttributes fields, SpanCall.spanEnd] ∧
    intermediate deps none fields = Run.returned [SpanCall.setAttributes fields] ∧
    (finish deps none fields).calls.filter SpanCall.isRecordError = [] ∧
    (finish deps none fields).calls.filter SpanCall.isSetStatus = [] ∧
    (intermediate deps none fields).calls.filter SpanCall.isRecordError = [] ∧
    (intermediate deps none fields).calls.filter SpanCall.isSetStatus = [] ∧
    spanAttributes (finish deps none fields).calls = fields ∧
    spanAttributes (intermediate deps none fields).calls = fields ∧
    (spanAttributes (finish deps none fields).calls).filter errorKeyed =
      fields.filter errorKeyed ∧
    (spanAttributes (intermediate deps none fields).calls).filter errorKeyed =
      fields.filter errorKeyed := by
  have hf : finish deps none fields =
      Run.returned [SpanCall.setAttributes fields, SpanCall.spanEnd] := by
    simp [finish, Run.andThen, Run.returned]
  have hi : intermediate deps none fields = Run.returned [SpanCall.setAttributes fields] := by
    simp [intermediate]
  rw [hf, hi]
  simp [Run.returned, SpanCall.isRecordError, SpanCall.isSetStatus, spanAttributes]

/-- Claim C4, as stated, fails: with a nil error and the single field `error = true`, `finish`
and `intermediate` both put on the span an attribute whose key starts with `"error"`. -/
theorem nil_error_can_set_error_keyed_attribute :
    ¬ (∀ (E : Type) (deps : ErrorDeps E) (fields : List KeyValue),
        (∀ kv ∈ spanAttributes (finish deps none fields).calls, errorKeyed kv = false) ∧
        (∀ kv ∈ spanAttributes (intermediate deps none fields).calls, errorKeyed kv = false)) := by
  intro h
  have h1 := (h Unit plainErrorDeps [attrBool "error" true]).1 (attrBool "error" true)
    (by simp [finish, Run.andThen, Run.returned, spanAttributes])
  revert h1
  decide

/-! ## Starting spans -/

/-- Claim C5: `startSpan` calls `tracer.Start` exactly once, with the caller's context, the
span name `operationName` and the attributes `fields` followed by the single attribute
`"ydb-go-sdk" = "v" + ydb.Version`; it returns the span `Start` returned and stores in `*ctx`
the context `Start` returned extended by `meta.WithTraceID` with the trace ID string of that
span's span context. -/
theorem startSpan_starts_once {Ctx Span SC : Type} (deps : TraceDeps Ctx Span SC) (ctx : Ctx)
    (operationName : String) (fields : List KeyValue) :
    (startSpan deps ctx operationName fields).startCalls =
      [⟨ctx, operationName, fields ++ [attrString "ydb-go-sdk" ("v" ++ deps.ydbVersion)]⟩] ∧
    (startSpan deps ctx operationName fields).span =
      (deps.start ctx operationName
        (fields ++ [attrString "ydb-go-sdk" ("v" ++ deps.ydbVersion)])).2 ∧
    (startSpan deps ctx operationName fields).ctx =
      deps.withTraceID
        (deps.start ctx operationName
          (fields ++ [attrString "ydb-go-sdk" ("v" ++ deps.ydbVersion)])).1
        (deps.traceIDString (startSpan deps ctx operationName fields).span) := by
  simp [startSpan, version]

/-- Claim C9: `startSpanWithCounter` returns a counter whose counter value is 0, whose name is
`counterName` and whose span is the one `startSpan` returns for `operationName` with the
attributes `fields` followed by `"ydb.driver.sensor" = operationName + "_" + counterName`; the
single `tracer.Start` call therefore carries the attributes in the order `fields`,
`ydb.driver.sensor`, `ydb-go-sdk`. -/
theorem startSpanWithCounter_counter {Ctx Span SC : Type} (deps : TraceDeps Ctx Span SC)
    (ctx : Ctx) (operationName counterName : String) (fields : List KeyValue) :
    (startSpanWithCounter deps ctx operationName counterName fields).1.counter = 0 ∧
    (startSpanWithCounter deps ctx operationName counterName fields).1.name = counterName ∧
    (startSpanWithCounter deps ctx operationName counterName fields).1.span =
      (startSpan deps ctx operationName
        (fields ++ [attrString "ydb.driver.sensor" (operationName ++ "_" ++ counterName)])).span ∧
    (startSpanWithCounter deps ctx operationName counterName fields).2 =
      startSpan deps ctx operationName
        (fields ++ [attrString "ydb.driver.sensor" (operationName ++ "_" ++ counterName)]) ∧
    (startSpanWithCounter deps ctx operationName counterName fields).2.startCalls =
      [⟨ctx, operationName,
        fields ++ [ attrString "ydb.driver.sensor" (operationName ++ "_" ++ counterName),
                    attrString "ydb-go-sdk" ("v" ++ deps.ydbVersion) ]⟩] := by
  simp [startSpanWithCounter, startSpan, version]

/-- Claim C10: `followSpan` calls `tracer.Start` exactly once, with the context obtained from
`*ctx` by `trace.ContextWithRemoteSpanContext(*ctx, related)`, the span name `operationName`
and the attributes `fields` followed by `"ydb-go-sdk" = version`; it returns the span `Start`
returned and stores in `*ctx` exactly the context `Start` returned. It never uses
`meta.WithTraceID` (replacing that function changes nothing), and the name and attributes it
passes are the ones `startSpan` passes. -/
theorem followSpan_starts_once {Ctx Span SC : Type} (deps : TraceDeps Ctx Span SC)
    (related : SC) (ctx : Ctx) (operationName : String) (fields : List KeyValue) :
    (followSpan deps related ctx operationName fields).startCalls =
      [⟨deps.contextWithRemoteSpanContext ctx related, operationName,
        fields ++ [attrString "ydb-go-sdk" (version deps.ydbVersion)]⟩] ∧
    (followSpan deps related ctx operationName fields).ctx =
      (deps.start (deps.contextWithRemoteSpanContext ctx related) operationName
        (fields ++ [attrString "ydb-go-sdk" (version deps.ydbVersion)])).1 ∧
    (followSpan deps related ctx operationName fields).span =
      (deps.start (deps.contextWithRemoteSpanContext ctx related) operationName
        (fields ++ [attrString "ydb-go-sdk" (version deps.ydbVersion)])).2 ∧
    (∀ f : Ctx → String → Ctx,
      followSpan { deps with withTraceID := f } related ctx operationName fields =
        followSpan deps related ctx operationName fields) ∧
    (followSpan deps related ctx operationName fields).startCalls.map
        (fun c => (c.spanName, c.attrs)) =
      (startSpan deps ctx operationName fields).startCalls.map
        (fun c => (c.spanName, c.attrs)) := by
  simp [followSpan, startSpan]

/-! ## Query parsing: the loop of `parseQuery` against the pairs of the query string -/

theorem lit_amp : lit "&" = [38] := by decide

theorem lit_semicolon : lit ";" = [59] := by decide

theorem lit_equals : lit "=" = [61] := by decide

theorem index_single_cons (c a : Nat) (cs : GoString) :
    index (c :: cs) [a] = if c = a then some 0 else (index cs [a]).map (· + 1) := by
  by_cases h : c = a
  · simp [index, hasPrefix, List.isPrefixOf, h]
  · have h2 : ¬ a = c := fun e => h e.symm
    simp [index, hasPrefix, List.isPrefixOf, h, h2]

theorem cut_nil (a : Nat) : cut [] [a] = ([], [], false) := by
  simp [cut, index]

theorem cut_cons (c a : Nat) (cs : GoString) :
    cut (c :: cs) [a] =
      if c = a then ([], cs, true)
      else (c :: (cut cs [a]).1, (cut cs [a]).2.1, (cut cs [a]).2.2) := by
  unfold cut
  rw [index_single_cons]
  by_cases h : c = a
  · simp [h]
  · simp only [h, if_false]
    cases index cs [a] <;> simp

theorem cut_rest_length (a : Nat) (cs : GoString) (c : Nat) :
    (cut (c :: cs) [a]).2.1.length ≤ cs.length := by
  induction cs generalizing c with
  | nil =>
    rw [cut_cons, cut_nil]
    by_cases h : c = a <;> simp [h]
  | cons d ds ih =>
    rw [cut_cons]
    by_cases h : c = a
    · simp [h]
    · simp only [h, if_false]
      exact Nat.le_succ_of_le (ih d)

theorem querySegments_ne_nil (q : GoString) : querySegments q ≠ [] := by
  cases q with
  | nil => simp [querySegments]
  | cons c cs =>
    unfold querySegments
    by_cases h : c = 38
    · simp [h]
    · simp only [h, if_false]
      cases querySegments cs <;> simp

/-- The segments of a non-empty query are the text before the first `&`, then the segments of
the text after it. -/
theorem querySegments_cons (c : Nat) (cs : GoString) :
    querySegments (c :: cs) =
      (cut (c :: cs) [38]).1 ::
        (if (cut (c :: cs) [38]).2.2 then querySegments (cut (c :: cs) [38]).2.1 else []) := by
  induction cs generalizing c with
  | nil =>
    rw [cut_cons, cut_nil]
    by_cases h : c = 38 <;> simp [querySegments, h]
  | cons d ds ih =>
    rw [cut_cons]
    by_cases h : c = 38
    · simp [querySegments, h]
    · have hq : querySegments (c :: d :: ds) =
          match querySegments (d :: ds) with
          | seg :: segs => (c :: seg) :: segs
          | [] => [[c]] := by
        rw [querySegments]
        simp [h]
      rw [hq, ih d]
      simp [h]

theorem wellFormedPair_nil : wellFormedPair [] = none := by
  simp [wellFormedPair]

theorem pairsWithKey_nil (k : GoString) : pairsWithKey k [] = [] := by
  simp [pairsWithKey, querySegments, wellFormedPair_nil]

/-- The pairs of a non-empty query with key `k`: the pair of its first segment, when that is
well formed and has the key, then the pairs of the text after the first `&`. -/
theorem pairsWithKey_cons (k : GoString) (c : Nat) (cs : GoString) :
    pairsWithKey k (c :: cs) =
      (match wellFormedPair (cut (c :: cs) [38]).1 with
       | some p => if p.key = k then [p] else []
       | none => []) ++ pairsWithKey k (cut (c :: cs) [38]).2.1 := by
  have hrest : (if (cut (c :: cs) [38]).2.2 then querySegments (cut (c :: cs) [38]).2.1 else
      ([] : List GoString)).filterMap wellFormedPair =
      (querySegments (cut (c :: cs) [38]).2.1).filterMap wellFormedPair := by
    cases hfound : (cut (c :: cs) [38]).2.2 with
    | true => simp
    | false =>
      have hempty : (cut (c :: cs) [38]).2.1 = [] := by
        unfold cut at hfound ⊢
        cases hi : index (c :: cs) [38] with
        | none => simp
        | some i => rw [hi] at hfound; simp at hfound
      rw [hempty]
      simp [querySegments, wellFormedPair_nil]
  unfold pairsWithKey
  rw [querySegments_cons, List.filterMap_cons]
  cases hw : wellFormedPair (cut (c :: cs) [38]).1 with
  | none => simp only [hrest, List.nil_append]
  | some p =>
    simp only [hrest, List.filter_cons]
    by_cases hk : p.key = k <;> simp [hk]

/-- The loop of `parseQuery` appends to each key, in order, the decoded values of the
well-formed pairs of the query carrying that key, whenever the fuel covers the query. -/
theorem parseQueryLoop_values (fuel : Nat) :
    ∀ (m : Values) (err : Option URLError) (query : GoString), query.length ≤ fuel →
      ∀ k, (parseQueryLoop fuel m err query).1 k =
        m k ++ (pairsWithKey k query).map (fun p => p.value) := by
  induction fuel with
  | zero =>
    intro m err query hlen k
    have hq : query = [] := List.length_eq_zero.mp (Nat.le_zero.mp hlen)
    subst hq
    simp [parseQueryLoop, pairsWithKey_nil]
  | succ fuel ih =>
    intro m err query hlen k
    cases query with
    | nil => simp [parseQueryLoop, pairsWithKey_nil]
    | cons c cs =>
      have hrest : (cut (c :: cs) [38]).2.1.length ≤ fuel :=
        Nat.le_trans (cut_rest_length 38 cs c) (Nat.le_of_succ_le_succ hlen)
      rw [pairsWithKey_cons]
      unfold parseQueryLoop
      simp only [lit_amp, lit_semicolon, lit_equals, reduceCtorEq, if_false]
      by_cases hsemi : contains (cut (c :: cs) [38]).1 [59] = true
      · rw [if_pos hsemi, ih _ _ _ hrest k]
        simp [wellFormedPair, lit_semicolon, hsemi]
      · rw [if_neg hsemi]
        by_cases hempty : (cut (c :: cs) [38]).1 = []
        · rw [if_pos hempty, ih _ _ _ hrest k]
          simp [wellFormedPair, hempty]
        · rw [if_neg hempty]
          cases hk : QueryUnescape (cut (cut (c :: cs) [38]).1 [61]).1 with
          | error e1 =>
            simp only []
            rw [ih _ _ _ hrest k]
            simp [wellFormedPair, lit_semicolon, lit_equals, hsemi, hempty, hk]
          | ok key =>
            cases hv : QueryUnescape (cut (cut (c :: cs) [38]).1 [61]).2.1 with
            | error e1 =>
              simp only []
              rw [ih _ _ _ hrest k]
              simp [wellFormedPair, lit_semicolon, lit_equals, hsemi, hempty, hk, hv]
            | ok value =>
              simp only []
              rw [ih _ _ _ hrest k]
              simp only [wellFormedPair, lit_semicolon, lit_equals, hsemi, hempty, hk, hv,
                or_self, if_false, Values.add]
              by_cases hkey : k = key
              · subst hkey
                simp
              · have hkey2 : ¬ key = k := fun e => hkey e.symm
                simp [hkey, hkey2]

/-- The values `ParseQuery` stores under a key, for a query within the parameter limit, are the
decoded values of the well-formed pairs with that key, in the order written. -/
theorem ParseQuery_values (query k : GoString) (hlimit : countByte query 38 + 1 ≤ 10000) :
    (ParseQuery query).1 k = (pairsWithKey k query).map (fun p => p.value) := by
  unfold ParseQuery parseQuery
  have hwithin : urlParamsWithinMax (countByte query 38 + 1) = true := by
    simp [urlParamsWithinMax, defaultMaxParams, hlimit]
  rw [hwithin]
  simp only [Bool.not_true, Bool.false_eq_true, if_false]
  rw [parseQueryLoop_values query.length Values.empty none query (Nat.le_refl _) k]
  simp [Values.empty]

/-- A query over the parameter limit is refused: `ParseQuery` stores nothing. -/
theorem ParseQuery_over_limit (query k : GoString) (hover : 10000 < countByte query 38 + 1) :
    (ParseQuery query).1 k = [] := by
  unfold ParseQuery parseQuery
  have hwithin : urlParamsWithinMax (countByte query 38 + 1) = false := by
    simp only [urlParamsWithinMax, defaultMaxParams, decide_eq_false_iff_not]
    omega
  rw [hwithin]
  simp [Values.empty]

/-- The method `Get` on the values of a query within the parameter limit: the decoded value of
the first well-formed pair with the key, or `""` when there is none. -/
theorem Query_Get (u : URL) (k : GoString) (hlimit : countByte u.RawQuery 38 + 1 ≤ 10000) :
    u.Query.Get k =
      match firstPairWithKey k u.RawQuery with
      | some p => p.value
      | none => [] := by
  unfold URL.Query Values.Get firstPairWithKey
  rw [ParseQuery_values _ _ hlimit]
  cases pairsWithKey k u.RawQuery <;> simp

/-- The method `Get` on the values of a query over the parameter limit gives `""`. -/
theorem Query_Get_over_limit (u : URL) (k : GoString)
    (hover : 10000 < countByte u.RawQuery 38 + 1) : u.Query.Get k = [] := by
  unfold URL.Query Values.Get
  rw [ParseQuery_over_limit _ _ hover]

/-- The method `Get` gives `""` for a key that no well-formed pair of the query carries. -/
theorem Query_Get_of_no_pair (u : URL) (k : GoString)
    (hnone : firstPairWithKey k u.RawQuery = none) : u.Query.Get k = [] := by
  by_cases hlimit : countByte u.RawQuery 38 + 1 ≤ 10000
  · rw [Query_Get u k hlimit, hnone]
  · exact Query_Get_over_limit u k (by omega)

/-- A well-formed pair carries the decoding of its value as written. -/
theorem wellFormedPair_value (seg : GoString) (p : QueryPair)
    (h : wellFormedPair seg = some p) : QueryUnescape p.rawValue = Except.ok p.value := by
  unfold wellFormedPair at h
  split at h
  · simp at h
  · split at h
    · next k v hk hv =>
      simp only [Option.some.injEq] at h
      subst h
      exact hv
    · simp at h

theorem firstPairWithKey_value (k query : GoString) (p : QueryPair)
    (h : firstPairWithKey k query = some p) :
    p.key = k ∧ QueryUnescape p.rawValue = Except.ok p.value := by
  unfold firstPairWithKey at h
  have hmem : p ∈ pairsWithKey k query := List.mem_of_mem_head? h
  unfold pairsWithKey at hmem
  rw [List.mem_filter, List.mem_filterMap] at hmem
  obtain ⟨⟨seg, _, hseg⟩, hkey⟩ := hmem
  exact ⟨by simpa using hkey, wellFormedPair_value seg p hseg⟩

/-! ## Query decoding -/

/-- In query mode, a scan that reports no escape and no `+` leaves the text as it is, which is
why `unescape` may return it without rewriting. -/
theorem unescapeScan_query_write :
    ∀ (s : GoString) (n : Nat) (hasPlus : Bool) (r : Nat × Bool),
      unescapeScan encoding.encodeQueryComponent s n hasPlus = Except.ok r →
      n ≤ r.1 ∧ (hasPlus = true → r.2 = true) ∧
      (r.1 = n → r.2 = false → unescapeWrite encoding.encodeQueryComponent s = s)
  | [], n, hasPlus, r, h => by
    simp only [unescapeScan, Except.ok.injEq] at h
    subst h
    simp [unescapeWrite]
  | c :: rest, n, hasPlus, r, h => by
    by_cases h37 : c = 37
    · subst h37
      match rest, h with
      | [], h => simp [unescapeScan] at h
      | [a], h => simp [unescapeScan] at h
      | a :: b :: rest2, h =>
        simp only [unescapeScan, if_true] at h
        split at h
        · simp at h
        · simp only [reduceCtorEq, false_and, if_false] at h
          have ih := unescapeScan_query_write rest2 (n + 1) hasPlus r h
          refine ⟨by omega, ih.2.1, ?_⟩
          intro h1
          omega
    · by_cases h43 : c = 43
      · subst h43
        unfold unescapeScan at h
        rw [if_neg (by decide), if_pos rfl] at h
        simp only [decide_True] at h
        have ih := unescapeScan_query_write rest n true r h
        refine ⟨ih.1, fun _ => ih.2.1 rfl, ?_⟩
        intro _ h2
        rw [ih.2.1 rfl] at h2
        exact absurd h2 (by decide)
      · unfold unescapeScan at h
        rw [if_neg h37, if_neg h43] at h
        simp only [reduceCtorEq, false_or, false_and, if_false] at h
        have ih := unescapeScan_query_write rest n hasPlus r h
        refine ⟨ih.1, ih.2.1, ?_⟩
        intro h1 h2
        unfold unescapeWrite
        rw [if_neg h37, if_neg h43, ih.2.2 h1 h2]

/-- What `QueryUnescape` returns is the text with every escape replaced by its byte and every
`+` by a space. -/
theorem QueryUnescape_eq_write (s v : GoString) (h : QueryUnescape s = Except.ok v) :
    v = unescapeWrite encoding.encodeQueryComponent s := by
  unfold QueryUnescape unescape at h
  split at h
  · simp at h
  · next n hasPlus hscan =>
    split at h
    · next hz =>
      simp only [Except.ok.injEq] at h
      subst h
      exact ((unescapeScan_query_write _ 0 false (n, hasPlus) hscan).2.2 hz.1 hz.2).symm
    · simp only [Except.ok.injEq] at h
      exact h.symm

/-! ## Where the query of a parsed URL comes from -/

theorem lit_question : lit "?" = [63] := by decide
theorem lit_hash : lit "#" = [35] := by decide

theorem index_single_none (a : Nat) (s : GoString) (h : a ∉ s) : index s [a] = none := by
  induction s with
  | nil => simp [index]
  | cons c cs ih =>
    rw [index_single_cons]
    have hc : ¬ c = a := fun e => h (by simp [e])
    have hcs : a ∉ cs := fun e => h (List.mem_cons_of_mem _ e)
    simp [hc, ih hcs]

theorem cut_fst_subset (s sep : GoString) (x : Nat) (h : x ∈ (cut s sep).1) : x ∈ s := by
  unfold cut at h
  cases hi : index s sep with
  | none => simpa [hi] using h
  | some i =>
    rw [hi] at h
    exact List.mem_of_mem_take h

theorem setPath_RawQuery (u u2 : URL) (p : GoString) (h : u.setPath p = Except.ok u2) :
    u2.RawQuery = u.RawQuery := by
  unfold URL.setPath at h
  split at h
  · simp at h
  · simp only [Except.ok.injEq] at h
    subst h
    rfl

theorem setFragment_RawQuery (u u2 : URL) (f : GoString)
    (h : u.setFragment f = Except.ok u2) : u2.RawQuery = u.RawQuery := by
  unfold URL.setFragment at h
  split at h
  · simp at h
  · simp only [Except.ok.injEq] at h
    subst h
    rfl

theorem parseHierarchy_RawQuery (url u2 : URL) (rest : GoString) (viaRequest : Bool)
    (h : parseHierarchy url rest viaRequest = Except.ok u2) : u2.RawQuery = url.RawQuery := by
  unfold parseHierarchy at h
  split_ifs at h
  · simp only [Except.ok.injEq] at h
    subst h
    rfl
  · simp only [] at h
    split at h
    · simp at h
    · exact (setPath_RawQuery _ _ _ h).trans rfl
  · exact (setPath_RawQuery _ _ _ h).trans rfl
  · exact setPath_RawQuery _ _ _ h

theorem getSchemeFrom_rest (rawURL : GoString) :
    ∀ (s : GoString) (i : Nat) (scheme rest : GoString),
      getSchemeFrom rawURL i s = Except.ok (scheme, rest) → ∀ x, x ∈ rest → x ∈ rawURL := by
  intro s
  induction s with
  | nil =>
    intro i scheme rest h x hx
    simp only [getSchemeFrom, Except.ok.injEq, Prod.mk.injEq] at h
    rw [← h.2] at hx
    exact hx
  | cons c s ih =>
    intro i scheme rest h x hx
    unfold getSchemeFrom at h
    split_ifs at h
    · exact ih _ _ _ h x hx
    · simp only [Except.ok.injEq, Prod.mk.injEq] at h
      rw [← h.2] at hx
      exact hx
    · exact ih _ _ _ h x hx
    · simp only [Except.ok.injEq, Prod.mk.injEq] at h
      rw [← h.2] at hx
      exact List.mem_of_mem_drop hx
    · simp only [Except.ok.injEq, Prod.mk.injEq] at h
      rw [← h.2] at hx
      exact hx

theorem parse_RawQuery_of_no_question (rawURL : GoString) (viaRequest : Bool) (u : URL)
    (hq : 63 ∉ rawURL) (h : parse rawURL viaRequest = Except.ok u) : u.RawQuery = [] := by
  unfold parse at h
  split_ifs at h
  · simp only [Except.ok.injEq] at h
    subst h
    rfl
  · split at h
    · simp at h
    · next scheme rest hs =>
      have hrest : 63 ∉ rest := fun hx => hq (getSchemeFrom_rest rawURL _ _ _ _ hs 63 hx)
      simp only [] at h
      split_ifs at h
      · rw [parseHierarchy_RawQuery _ _ _ _ h]
      · rw [parseHierarchy_RawQuery _ _ _ _ h]
        simp [cut, lit_question, index_single_none 63 rest hrest]

theorem Parse_RawQuery_of_no_question (s : GoString) (u : URL) (hq : 63 ∉ s)
    (h : Parse s = Except.ok u) : u.RawQuery = [] := by
  unfold Parse at h
  simp only [] at h
  have hq2 : 63 ∉ (cut s (lit "#")).1 := fun hx => hq (cut_fst_subset _ _ _ hx)
  split at h
  · simp at h
  · next url hp =>
    have hurl := parse_RawQuery_of_no_question _ _ _ hq2 hp
    split_ifs at h
    · simp only [Except.ok.injEq] at h
      rw [← h]
      exact hurl
    · split at h
      · simp at h
      · next u3 hf =>
        simp only [Except.ok.injEq] at h
        rw [← h, setFragment_RawQuery _ _ _ hf]
        exact hurl

/-! ## `nodeID` -/

/-- The function `nodeID` after a successful parse: the `node_id` value of the query. -/
theorem nodeIDWith_ok (urlParse : GoString → Except ParseError URL) (sessionID : GoString)
    (u : URL) (h : urlParse sessionID = Except.ok u) :
    nodeIDWith urlParse sessionID = u.Query.Get (lit "node_id") := by
  unfold nodeIDWith
  rw [h]

/-- A control byte before the first `#` makes `url.Parse` fail, so `nodeID` is empty. -/
theorem nodeID_of_control_byte (sessionID : GoString)
    (h : stringContainsCTLByte (cut sessionID (lit "#")).1 = true) : nodeID sessionID = [] := by
  simp [nodeID, nodeIDWith, Parse, parse, h]

/-- A session ID without any `?` has no query, so `nodeID` is empty whether or not it parses. -/
theorem nodeID_of_no_question (sessionID : GoString) (h : 63 ∉ sessionID) :
    nodeID sessionID = [] := by
  unfold nodeID
  cases hp : Parse sessionID with
  | error e => simp [nodeIDWith, hp]
  | ok u =>
    rw [nodeIDWith_ok Parse sessionID u hp]
    apply Query_Get_of_no_pair
    rw [Parse_RawQuery_of_no_question sessionID u h hp]
    simp [firstPairWithKey, pairsWithKey_nil]

/-- The empty session ID parses, as the empty URL, and has no node identifier. -/
theorem nodeID_of_empty : Parse [] = Except.ok {} ∧ nodeID [] = [] := ⟨rfl, rfl⟩

/-- The session ID `ydb://h/?node_id=1` followed by `n + 1` separators `&` parses, and its
query is everything after the `?`. -/
theorem Parse_with_trailing_separators (n : Nat) :
    Parse (lit "ydb://h/?node_id=1" ++ List.replicate (n + 1) 38) =
      Except.ok { Scheme := lit "ydb", Host := lit "h", Path := lit "/",
                  RawQuery := lit "node_id=1" ++ List.replicate (n + 1) 38 } := by
  have hs : lit "ydb://h/?node_id=1" =
      [121, 100, 98, 58, 47, 47, 104, 47, 63, 110, 111, 100, 101, 95, 105, 100, 61, 49] := by
    decide
  have hhash : cut (lit "ydb://h/?node_id=1" ++ List.replicate (n + 1) 38) (lit "#") =
      (lit "ydb://h/?node_id=1" ++ List.replicate (n + 1) 38, [], false) := by
    have hnot : 35 ∉ lit "ydb://h/?node_id=1" ++ List.replicate (n + 1) 38 := by
      rw [hs]
      simp [List.mem_replicate]
    simp [cut, lit_hash, index_single_none 35 _ hnot]
  have hctl : stringContainsCTLByte
      (lit "ydb://h/?node_id=1" ++ List.replicate (n + 1) 38) = false := by
    rw [hs]
    simp [stringContainsCTLByte, List.any_replicate]
  have hstar : ¬ (lit "ydb://h/?node_id=1" ++ List.replicate (n + 1) 38 = lit "*") := by
    intro h
    have := congrArg List.length h
    rw [hs] at this
    simp [lit] at this
  have hscheme : getScheme (lit "ydb://h/?node_id=1" ++ List.replicate (n + 1) 38) =
      Except.ok (lit "ydb", lit "//h/?node_id=1" ++ List.replicate (n + 1) 38) := rfl
  have hsuffix : hasSuffix (lit "//h/?node_id=1" ++ List.replicate (n + 1) 38) (lit "?") =
      false := by
    rw [hasSuffix, List.reverse_append, List.reverse_replicate, List.replicate_succ, lit_question]
    simp [List.isPrefixOf]
  unfold Parse
  simp only [hhash]
  unfold parse
  rw [if_neg (by simp [hctl]), if_neg (by simp), if_neg hstar, hscheme]
  simp only []
  rw [if_neg (by simp [hsuffix])]
  rfl

/-- The first well-formed pair with key `node_id` of the query `node_id=1` followed by any
number of separators `&` is `node_id=1`. -/
theorem firstPairWithKey_with_trailing_separators (n : Nat) :
    firstPairWithKey (lit "node_id") (lit "node_id=1" ++ List.replicate n 38) =
      some ⟨lit "node_id", lit "1", lit "1"⟩ := by
  have hs : lit "node_id=1" = [110, 111, 100, 101, 95, 105, 100, 61, 49] := by decide
  have hq : lit "node_id=1" ++ List.replicate n 38 =
      110 :: ([111, 100, 101, 95, 105, 100, 61, 49] ++ List.replicate n 38) := by
    rw [hs]
    rfl
  have hfirst : (cut (110 :: ([111, 100, 101, 95, 105, 100, 61, 49] ++ List.replicate n 38))
      [38]).1 = lit "node_id=1" := by
    rw [hs]
    cases n with
    | zero => simp [cut_cons, cut_nil]
    | succ m => simp [cut_cons, List.replicate_succ]
  have hpair : wellFormedPair (lit "node_id=1") = some ⟨lit "node_id", lit "1", lit "1"⟩ := by
    decide
  unfold firstPairWithKey
  rw [hq, pairsWithKey_cons, hfirst, hpair]
  simp

/-- Claim C1: whenever `url.Parse` rejects the session ID, `nodeID` returns the empty string
(`nodeID` is a total function: it has a result on every input). -/
theorem nodeID_empty_on_parse_error (sessionID : GoString) (e : ParseError)
    (h : Parse sessionID = Except.error e) : nodeID sessionID = [] := by
  unfold nodeID nodeIDWith
  rw [h]

/-- Witness for claim C1: `"ydb://session/%zz?node_id=1"` has an invalid percent-escape in its
path, `url.Parse` rejects it, and `nodeID` is empty although the query names a node. -/
theorem nodeID_empty_on_parse_error_witness :
    Parse (lit "ydb://session/%zz?node_id=1") =
      Except.error ⟨"parse", lit "ydb://session/%zz?node_id=1",
        URLError.escapeError (lit "%zz")⟩ ∧
    nodeID (lit "ydb://session/%zz?node_id=1") = [] :=
  ⟨rfl, nodeID_empty_on_parse_error _ _ rfl⟩

/-- Claim C2, as amended: whatever `url.Parse` does, when it accepts the session ID, the query
of the URL it returns holds at most 10000 parameters (fewer than 10000 separators `&`), and `p`
is the first well-formed pair of that query whose key is `node_id`, `nodeID` returns the
query-decoding of the value of `p` (what `url.QueryUnescape` gives: every percent-escape
replaced by its byte and every `+` by a space), whatever the scheme, the path and the other
query parameters are. -/
theorem nodeID_first_node_id_pair (urlParse : GoString → Except ParseError URL)
    (sessionID : GoString) (u : URL) (p : QueryPair)
    (hparse : urlParse sessionID = Except.ok u)
    (hlimit : countByte u.RawQuery 38 + 1 ≤ 10000)
    (hfirst : firstPairWithKey (lit "node_id") u.RawQuery = some p) :
    QueryUnescape p.rawValue = Except.ok (nodeIDWith urlParse sessionID) ∧
    nodeIDWith urlParse sessionID = unescapeWrite encoding.encodeQueryComponent p.rawValue := by
  have hval : nodeIDWith urlParse sessionID = p.value := by
    rw [nodeIDWith_ok urlParse sessionID u hparse, Query_Get u _ hlimit, hfirst]
  have hdec := (firstPairWithKey_value _ _ _ hfirst).2
  rw [hval]
  exact ⟨hdec, QueryUnescape_eq_write _ _ hdec⟩

/-- Witness for claim C2, with the embedded `url.Parse`:
`nodeID("ydb://session/3?node_id=1&id=abc") = "1"`, and
`nodeID("ydb://session/3?id=abc&node%5Fid=a%2Bb+c") = "a+b c"`, where the key and the value are
both decoded. -/
theorem nodeID_first_node_id_pair_witness :
    (Parse (lit "ydb://session/3?node_id=1&id=abc") =
      Except.ok { Scheme := lit "ydb", Host := lit "session", Path := lit "/3",
                  RawQuery := lit "node_id=1&id=abc" } ∧
     countByte (lit "node_id=1&id=abc") 38 + 1 ≤ 10000 ∧
     firstPairWithKey (lit "node_id") (lit "node_id=1&id=abc") =
       some ⟨lit "node_id", lit "1", lit "1"⟩ ∧
     nodeID (lit "ydb://session/3?node_id=1&id=abc") = lit "1" ∧
     QueryUnescape (lit "1") =
       Except.ok (nodeID (lit "ydb://session/3?node_id=1&id=abc"))) ∧
    (Parse (lit "ydb://session/3?id=abc&node%5Fid=a%2Bb+c") =
      Except.ok { Scheme := lit "ydb", Host := lit "session", Path := lit "/3",
                  RawQuery := lit "id=abc&node%5Fid=a%2Bb+c" } ∧
     countByte (lit "id=abc&node%5Fid=a%2Bb+c") 38 + 1 ≤ 10000 ∧
     firstPairWithKey (lit "node_id") (lit "id=abc&node%5Fid=a%2Bb+c") =
       some ⟨lit "node_id", lit "a%2Bb+c", lit "a+b c"⟩ ∧
     nodeID (lit "ydb://session/3?id=abc&node%5Fid=a%2Bb+c") = lit "a+b c" ∧
     QueryUnescape (lit "a%2Bb+c") =
       Except.ok (nodeID (lit "ydb://session/3?id=abc&node%5Fid=a%2Bb+c"))) :=
  ⟨⟨rfl, by decide, rfl, rfl,
     (nodeID_first_node_id_pair Parse (lit "ydb://session/3?node_id=1&id=abc")
       { Scheme := lit "ydb", Host := lit "session", Path := lit "/3",
         RawQuery := lit "node_id=1&id=abc" }
       ⟨lit "node_id", lit "1", lit "1"⟩ rfl (by decide) rfl).1⟩,
   ⟨rfl, by decide, rfl, rfl,
     (nodeID_first_node_id_pair Parse (lit "ydb://session/3?id=abc&node%5Fid=a%2Bb+c")
       { Scheme := lit "ydb", Host := lit "session", Path := lit "/3",
         RawQuery := lit "id=abc&node%5Fid=a%2Bb+c" }
       ⟨lit "node_id", lit "a%2Bb+c", lit "a+b c"⟩ rfl (by decide) rfl).1⟩⟩

/-- Claim C2, as stated, fails in two ways. First, `"ydb://session/3?node_id=a+b"` parses, the
first well-formed pair of its query with key `node_id` has the value `a+b`, whose
percent-decoding is `a+b` itself, and `nodeID` returns `a b`. Second,
`"ydb://h/?node_id=1"` followed by 10000 separators `&` parses, the first well-formed pair of
its query with key `node_id` is `node_id=1`, and `nodeID` returns the empty string, because a
query of 10001 parameters is refused whole. -/
theorem nodeID_is_not_percent_decoded_first_pair :
    (¬ (∀ (sessionID : GoString) (u : URL) (p : QueryPair),
        Parse sessionID = Except.ok u →
        firstPairWithKey (lit "node_id") u.RawQuery = some p →
        nodeID sessionID = percentDecode p.rawValue)) ∧
    (Parse (lit "ydb://session/3?node_id=a+b") =
       Except.ok { Scheme := lit "ydb", Host := lit "session", Path := lit "/3",
                   RawQuery := lit "node_id=a+b" } ∧
     firstPairWithKey (lit "node_id") (lit "node_id=a+b") =
       some ⟨lit "node_id", lit "a+b", lit "a b"⟩ ∧
     percentDecode (lit "a+b") = lit "a+b" ∧
     nodeID (lit "ydb://session/3?node_id=a+b") = lit "a b") ∧
    (Parse (lit "ydb://h/?node_id=1" ++ List.replicate 10000 38) =
       Except.ok { Scheme := lit "ydb", Host := lit "h", Path := lit "/",
                   RawQuery := lit "node_id=1" ++ List.replicate 10000 38 } ∧
     firstPairWithKey (lit "node_id") (lit "node_id=1" ++ List.replicate 10000 38) =
       some ⟨lit "node_id", lit "1", lit "1"⟩ ∧
     percentDecode (lit "1") = lit "1" ∧
     nodeID (lit "ydb://h/?node_id=1" ++ List.replicate 10000 38) = []) := by
  refine ⟨?_, ⟨rfl, rfl, rfl, rfl⟩, ⟨Parse_with_trailing_separators 9999,
    firstPairWithKey_with_trailing_separators 10000, rfl, ?_⟩⟩
  · intro h
    have h1 := h (lit "ydb://session/3?node_id=a+b")
      { Scheme := lit "ydb", Host := lit "session", Path := lit "/3",
        RawQuery := lit "node_id=a+b" }
      ⟨lit "node_id", lit "a+b", lit "a b"⟩ rfl rfl
    revert h1
    decide
  · unfold nodeID
    rw [nodeIDWith_ok Parse _ _ (Parse_with_trailing_separators 9999)]
    apply Query_Get_over_limit
    have hs : lit "node_id=1" = [110, 111, 100, 101, 95, 105, 100, 61, 49] := by decide
    simp only [countByte, hs, List.count_append, List.count_replicate]
    decide

/-- Claim C7: when the session ID parses as a URL and its query has no well-formed pair with
key `node_id`, `nodeID` returns the empty string. -/
theorem nodeID_empty_without_node_id_pair (sessionID : GoString) (u : URL)
    (hparse : Parse sessionID = Except.ok u)
    (hnone : firstPairWithKey (lit "node_id") u.RawQuery = none) :
    nodeID sessionID = [] := by
  unfold nodeID
  rw [nodeIDWith_ok Parse sessionID u hparse]
  exact Query_Get_of_no_pair u _ hnone

/-- Witness for claim C7: `"ydb://session/3?node_id=%zz&id=abc"` parses, its only `node_id` pair
is malformed and dropped, and `nodeID` is empty: an empty result does not mean that parsing
failed. -/
theorem nodeID_empty_without_node_id_pair_witness :
    Parse (lit "ydb://session/3?node_id=%zz&id=abc") =
      Except.ok { Scheme := lit "ydb", Host := lit "session", Path := lit "/3",
                  RawQuery := lit "node_id=%zz&id=abc" } ∧
    firstPairWithKey (lit "node_id") (lit "node_id=%zz&id=abc") = none ∧
    nodeID (lit "ydb://session/3?node_id=%zz&id=abc") = [] :=
  ⟨rfl, rfl,
    nodeID_empty_without_node_id_pair (lit "ydb://session/3?node_id=%zz&id=abc")
      { Scheme := lit "ydb", Host := lit "session", Path := lit "/3",
        RawQuery := lit "node_id=%zz&id=abc" } rfl rfl⟩

end YdbOtel
